import Mathlib

/-!
# Verification of the elasticsearch cluster health tracker and dispatcher

A shallow embedding, in Lean 4, of the health state machine, node probing,
best-node selection, control loop and request bundling of the
`peterbourgon/elasticsearch` Go client, together with proofs of the
specified properties.

Conventions of the embedding:
* Go's `Health` enum (`Green`, `Yellow`, `Red`) becomes an inductive type.
* A Go `*Node` becomes a structure holding the endpoint, the current
  health, and the ping timeout; mutation of a node becomes a pure function
  from node to node.
* Network interaction (URL parsing, HTTP GET, body reads, JSON decoding)
  is modelled by explicit environment values describing the outcome of
  each fallible step, so that the control flow of the Go functions can be
  reproduced exactly and reasoned about for every possible outcome.  A
  timeout of the ping dialer surfaces, as in Go, as an error from the GET.
* `rand.Intn` is modelled by a parameter `intn : (k : Nat) → 0 < k → Fin k`:
  for positive `k`, `rand.Intn k` returns a value in `[0, k)`; the Go code
  only ever calls it with positive `k`.
-/

namespace ES

/-- Health is some encoding of the perceived state of a Node
(`requests.go`, `type Health int` with constants `Green`, `Yellow`, `Red`). -/
inductive Health where
  | Green
  | Yellow
  | Red
deriving DecidableEq, Repr

open Health

/-- `func (h Health) Improve() Health`: `switch h { case Red: return Yellow;
default: return Green }`. -/
def Health.Improve : Health → Health
  | Red => Yellow
  | _ => Green

/-- `func (h Health) Degrade() Health`: `switch h { case Green: return Yellow;
default: return Red }`. -/
def Health.Degrade : Health → Health
  | Green => Yellow
  | _ => Red

/-- A Node represents a single ElasticSearch host (`requests.go`,
`type Node struct`): an endpoint, a mutable health, and the ping timeout
carried by its dedicated ping HTTP client.  The two HTTP clients hold no
other state relevant to the embedding. -/
structure Node where
  endpoint : String
  health : Health
  pingTimeout : Nat
deriving DecidableEq, Repr

/-- `func NewNode(endpoint string, pingTimeout time.Duration) *Node`:
a fresh node starts with `health: Yellow`. -/
def NewNode (endpoint : String) (pingTimeout : Nat) : Node :=
  { endpoint := endpoint, health := Yellow, pingTimeout := pingTimeout }

/-- `func (n *Node) GetHealth() Health`: a lock-guarded read of the health
field.  In the pure embedding it is the field projection. -/
def Node.GetHealth (n : Node) : Health :=
  n.health

/-- `func (n *Node) pingAndSet()`, with the outcome of `n.Ping()` passed in
as `success`: under the node's write lock, `if success { n.health =
n.health.Improve() } else { n.health = n.health.Degrade() }`.  The function
returns no error: a failed probe is absorbed into the degradation. -/
def Node.pingAndSet (n : Node) (success : Bool) : Node :=
  if success then
    { n with health := n.health.Improve }
  else
    { n with health := n.health.Degrade }

/-- The operations the package performs against a live `*Node`.  `Ping`,
`GetHealth`, `searchCommon`, `Search` and `MultiSearch` read fields but
never assign them; `pingAndSet` is the one assignment to `n.health`. -/
inductive NodeOp where
  | pingAndSet (probeSuccess : Bool)
  | getHealth
  | ping
  | search
  | multiSearch
deriving DecidableEq, Repr

/-- Effect of each node operation on the node's state, read off from the
bodies of the corresponding Go methods: only `pingAndSet` assigns to a
field of the node; every other method leaves the node unchanged. -/
def Node.step (n : Node) : NodeOp → Node
  | .pingAndSet success => n.pingAndSet success
  | .getHealth => n
  | .ping => n
  | .search => n
  | .multiSearch => n

/-- A JSON document, for modelling `encoding/json` decoding of ping
response bodies. -/
inductive Json where
  | null
  | boolean (b : Bool)
  | number (i : Int)
  | string (s : String)
  | array (items : List Json)
  | object (fields : List (String × Json))
deriving Repr

/-- Decoding the fields of a JSON object into `struct { OK bool }` with tag
`json:"ok"`, as `encoding/json` does: fields are processed in order, a
later `"ok"` binding overwrites an earlier one, a non-boolean value for
`"ok"` is a type error (so `Unmarshal` returns an error), unknown fields
are ignored, and a missing `"ok"` leaves the zero value `false`. -/
def decodeOkFields : List (String × Json) → Bool → Option Bool
  | [], acc => some acc
  | (key, value) :: rest, acc =>
    if key = "ok" then
      match value with
      | .boolean b => decodeOkFields rest b
      | _ => none
    else
      decodeOkFields rest acc

/-- `json.Unmarshal(buf, &status)` for `var status struct { OK bool }`:
succeeds on a JSON object (field rules as in `decodeOkFields`) and on JSON
`null` (leaving the zero value); any other top-level JSON value is a type
error. `none` models `Unmarshal` returning an error. -/
def unmarshalStatusOK : Json → Option Bool
  | .object fields => decodeOkFields fields false
  | .null => some false
  | _ => none

/-- Outcome of `n.pingClient.Get` and the subsequent body read inside
`Ping`.  `transportError` covers a failed connection and the ping dialer's
deadline firing (both surface as an error from `Get`); `readError` is
`ioutil.ReadAll` failing; `body none` is a body that is not valid JSON;
`body (some j)` is a body whose JSON value is `j`. -/
inductive GetOutcome where
  | transportError
  | readError
  | body (json : Option Json)
deriving Repr

/-- The fallible steps of one `Ping` call, as an explicit environment. -/
structure PingEnv where
  urlParseOK : Bool
  outcome : GetOutcome
deriving Repr

/-- `func (n *Node) Ping() bool` over the outcome environment: fail if
`url.Parse` fails; fail on a GET (or deadline) error; fail on a body read
error; fail if `json.Unmarshal` fails; fail if `!status.OK`; otherwise
return true. -/
def Ping (env : PingEnv) : Bool :=
  if env.urlParseOK = false then
    false
  else
    match env.outcome with
    | .transportError => false
    | .readError => false
    | .body none => false
    | .body (some j) =>
      match unmarshalStatusOK j with
      | none => false
      | some ok => ok

/-- The bucket-building loop of `func (n Nodes) getBest()`: one pass over
the nodes, appending each Green node to the `green` slice and each Yellow
node to the `yellow` slice; Red nodes are appended to neither. -/
def getBestBuckets (nodes : List Node) : List Node × List Node :=
  nodes.foldl
    (fun acc node =>
      match node.GetHealth with
      | Green => (acc.1 ++ [node], acc.2)
      | Yellow => (acc.1, acc.2 ++ [node])
      | Red => acc)
    ([], [])

/-- `func (n Nodes) getBest() (*Node, error)`: partition into green and
yellow buckets, then `green[rand.Intn(len(green))]` if green is non-empty,
else `yellow[rand.Intn(len(yellow))]` if yellow is non-empty, else the
error `"no healthy nodes available"`. -/
def getBest (intn : (k : Nat) → 0 < k → Fin k) (nodes : List Node) :
    Except String Node :=
  let green := (getBestBuckets nodes).1
  let yellow := (getBestBuckets nodes).2
  if hg : 0 < green.length then
    .ok (green.get (intn green.length hg))
  else if hy : 0 < yellow.length then
    .ok (yellow.get (intn yellow.length hy))
  else
    .error "no healthy nodes available"

/-- The green bucket built by `getBest`. -/
def greenBucket (nodes : List Node) : List Node :=
  (getBestBuckets nodes).1

/-- The yellow bucket built by `getBest`. -/
def yellowBucket (nodes : List Node) : List Node :=
  (getBestBuckets nodes).2

/-- The bucket `getBest` draws from when it succeeds: green if non-empty,
otherwise yellow. -/
def winningBucket (nodes : List Node) : List Node :=
  if 0 < (greenBucket nodes).length then greenBucket nodes
  else yellowBucket nodes

/-- A Cluster (`cluster.go`, `type Cluster struct`): the managed node set
and the ping interval.  The three channels of the Go struct belong to the
event-level control-loop model below, not to the state. -/
structure Cluster where
  nodes : List Node
  pingInterval : Nat
deriving DecidableEq, Repr

/-- `func NewCluster(endpoints []string, pingInterval, pingTimeout
time.Duration) *Cluster`: one `NewNode(endpoint, pingTimeout)` per
endpoint, in order, then the control loop is started. -/
def NewCluster (endpoints : List String) (pingInterval pingTimeout : Nat) :
    Cluster :=
  { nodes := endpoints.map (fun endpoint => NewNode endpoint pingTimeout),
    pingInterval := pingInterval }

/-- The events the control loop `func (c *Cluster) loop()` can receive
from its `select`: a ticker tick, an inbound search bundle, an inbound
multi-search bundle, or a shutdown request.  Bundles are tagged with an
identifier standing for the private channels of that bundle. -/
inductive LoopEvent where
  | tick
  | searchBundle (id : Nat)
  | multiSearchBundle (id : Nat)
  | shutdown
deriving DecidableEq, Repr

/-- The observable actions of the control loop: launching a concurrent
`pingAll`, answering a bundle's error channel when `getBest` fails,
handing a bundle and its chosen node to a spawned worker, and
acknowledging shutdown on the requester's channel. -/
inductive LoopEffect where
  | probeAll
  | searchErr (id : Nat) (e : String)
  | dispatchSearch (id : Nat) (node : Node)
  | multiSearchErr (id : Nat) (e : String)
  | dispatchMultiSearch (id : Nat) (node : Node)
  | ackShutdown
deriving DecidableEq, Repr

/-- One arm of the `select` in `loop`, for a non-shutdown event: a tick
launches `pingAll`; a bundle is answered with `getBest`'s error or handed
to a worker.  Node healths are treated as fixed over the run: probe
launches are recorded as effects and their concurrent health writes do not
change which events the loop processes. -/
def loopStep (intn : (k : Nat) → 0 < k → Fin k) (nodes : List Node) :
    LoopEvent → List LoopEffect
  | .tick => [.probeAll]
  | .searchBundle id =>
    match getBest intn nodes with
    | .error e => [.searchErr id e]
    | .ok node => [.dispatchSearch id node]
  | .multiSearchBundle id =>
    match getBest intn nodes with
    | .error e => [.multiSearchErr id e]
    | .ok node => [.dispatchMultiSearch id node]
  | .shutdown => [.ackShutdown]

/-- `func (c *Cluster) loop()` over the sequence of events its `select`
would deliver, in order: each event is handled by `loopStep`; on the
shutdown event the loop sends `q <- true` (the `ackShutdown` effect) and
returns, processing no later event.  `Shutdown()` blocks on exactly that
acknowledgement, so the ack is the last effect of the loop's life. -/
def loop (intn : (k : Nat) → 0 < k → Fin k) (nodes : List Node) :
    List LoopEvent → List LoopEffect
  | [] => []
  | .shutdown :: _ => [.ackShutdown]
  | e :: rest => loopStep intn nodes e ++ loop intn nodes rest

/-- A write performed by a worker on one of a bundle's two channels
(`b.err` or `b.response`). -/
inductive BundleWrite (ε ρ : Type) where
  | err (e : ε)
  | response (r : ρ)
deriving DecidableEq, Repr

/-- `func sendSearchBundle(s Searcher, b searchBundle)`, with the result
of `s.Search(b.request)` passed in: on error, one write to `b.err` and
return; otherwise one write to `b.response`.  The list records every
channel write the worker performs, in order. -/
def sendSearchBundle {ε ρ : Type} (searchResult : Except ε ρ) :
    List (BundleWrite ε ρ) :=
  match searchResult with
  | .error e => [.err e]
  | .ok r => [.response r]

/-- `func sendMultiSearchBundle(s MultiSearcher, b multiSearchBundle)`,
with the result of `s.MultiSearch(b.request)` passed in: same shape as
`sendSearchBundle`. -/
def sendMultiSearchBundle {ε ρ : Type} (multiSearchResult : Except ε ρ) :
    List (BundleWrite ε ρ) :=
  match multiSearchResult with
  | .error e => [.err e]
  | .ok r => [.response r]

/-- The HTTP response handed back by `n.searchClient.Do`: the status code
and the raw body bytes (bytes stay abstract in the type `β`). -/
structure HttpResponseGo (β : Type) where
  statusCode : Nat
  bodyBytes : β
deriving DecidableEq, Repr

/-- The error cases of `searchCommon`, `Search` and `MultiSearch`, one per
fallible step of the Go code. -/
inductive SearchErr where
  | urlParseErr
  | bodyErr
  | newRequestErr
  | transportErr
  | readAllErr
  | decodeErr
deriving DecidableEq, Repr

/-- The fallible steps of one `searchCommon` call, as an explicit
environment: whether `url.Parse`, `f.Body()` and `http.NewRequest`
succeed, the outcome of `searchClient.Do` (`none` is a transport error),
and whether `ioutil.ReadAll` succeeds. -/
structure SearchEnv (β : Type) where
  urlParseOK : Bool
  requestBodyOK : Bool
  newRequestOK : Bool
  doResult : Option (HttpResponseGo β)
  readAllOK : Bool
deriving Repr

/-- `func (n *Node) searchCommon(f Fireable) ([]byte, error)`: propagate
the first failing step's error, otherwise return the raw response bytes.
No field of the response other than its body is consulted. -/
def searchCommon {β : Type} (env : SearchEnv β) : Except SearchErr β :=
  if env.urlParseOK = false then .error .urlParseErr
  else if env.requestBodyOK = false then .error .bodyErr
  else if env.newRequestOK = false then .error .newRequestErr
  else
    match env.doResult with
    | none => .error .transportErr
    | some resp =>
      if env.readAllOK = false then .error .readAllErr
      else .ok resp.bodyBytes

/-- `func (n *Node) Search(r SearchRequest) (SearchResponse, error)`:
`searchCommon`, then `json.Unmarshal` of the bytes into the response type
(modelled by the oracle `unmarshalResponse`; `none` is an unmarshal
error). -/
def NodeSearch {β ρ : Type} (unmarshalResponse : β → Option ρ)
    (env : SearchEnv β) : Except SearchErr ρ :=
  match searchCommon env with
  | .error e => .error e
  | .ok responseBuf =>
    match unmarshalResponse responseBuf with
    | none => .error .decodeErr
    | some r => .ok r

/-- `func (n *Node) MultiSearch(r MultiSearchRequest) (MultiSearchResponse,
error)`: identical control flow to `Search`, with the multi-search
response type. -/
def NodeMultiSearch {β ρ : Type} (unmarshalResponse : β → Option ρ)
    (env : SearchEnv β) : Except SearchErr ρ :=
  match searchCommon env with
  | .error e => .error e
  | .ok responseBuf =>
    match unmarshalResponse responseBuf with
    | none => .error .decodeErr
    | some r => .ok r

/-- Replace the status code of the (possible) HTTP response in a search
environment, leaving everything else alone. -/
def SearchEnv.withStatus {β : Type} (env : SearchEnv β) (code : Nat) :
    SearchEnv β :=
  { env with
    doResult :=
      env.doResult.map (fun resp => { resp with statusCode := code }) }

/-- A concrete draw for `rand.Intn`: always pick index 0. -/
def intnZero : (k : Nat) → 0 < k → Fin k :=
  fun _ h => ⟨0, h⟩

/-- A concrete draw for `rand.Intn` that returns `i % k`. -/
def intnConst (i : Nat) : (k : Nat) → 0 < k → Fin k :=
  fun k h => ⟨i % k, Nat.mod_lt i h⟩

/-! ## Helper lemmas about the buckets of `getBest` -/

/-- The bucket loop is extensionally a pair of filters: the green bucket
is the sublist of Green nodes in order, the yellow bucket the sublist of
Yellow nodes in order. -/
theorem getBestBuckets_eq_filter (nodes : List Node) :
    getBestBuckets nodes =
      (nodes.filter (fun n => n.GetHealth = Green),
       nodes.filter (fun n => n.GetHealth = Yellow)) := by
  have general :
      ∀ (l : List Node) (g y : List Node),
        l.foldl
          (fun acc node =>
            match node.GetHealth with
            | Green => (acc.1 ++ [node], acc.2)
            | Yellow => (acc.1, acc.2 ++ [node])
            | Red => acc)
          (g, y) =
        (g ++ l.filter (fun n => n.GetHealth = Green),
         y ++ l.filter (fun n => n.GetHealth = Yellow)) := by
    intro l
    induction l with
    | nil => intro g y; simp [List.foldl]
    | cons hd tl ih =>
      intro g y
      cases hh : hd.GetHealth <;>
        simp [List.foldl, List.filter, hh, ih, List.append_assoc]
  simpa using general nodes [] []

theorem greenBucket_eq (nodes : List Node) :
    greenBucket nodes = nodes.filter (fun n => n.GetHealth = Green) := by
  simp [greenBucket, getBestBuckets_eq_filter]

theorem yellowBucket_eq (nodes : List Node) :
    yellowBucket nodes = nodes.filter (fun n => n.GetHealth = Yellow) := by
  simp [yellowBucket, getBestBuckets_eq_filter]

theorem mem_greenBucket {nodes : List Node} {n : Node} :
    n ∈ greenBucket nodes ↔ n ∈ nodes ∧ n.GetHealth = Green := by
  simp [greenBucket_eq, List.mem_filter]

theorem mem_yellowBucket {nodes : List Node} {n : Node} :
    n ∈ yellowBucket nodes ↔ n ∈ nodes ∧ n.GetHealth = Yellow := by
  simp [yellowBucket_eq, List.mem_filter]

theorem greenBucket_pos_iff {nodes : List Node} :
    0 < (greenBucket nodes).length ↔ ∃ n ∈ nodes, n.GetHealth = Green := by
  rw [List.length_pos_iff_exists_mem]
  constructor
  · rintro ⟨n, hn⟩
    rcases mem_greenBucket.mp hn with ⟨hmem, hg⟩
    exact ⟨n, hmem, hg⟩
  · rintro ⟨n, hmem, hg⟩
    exact ⟨n, mem_greenBucket.mpr ⟨hmem, hg⟩⟩

theorem yellowBucket_pos_iff {nodes : List Node} :
    0 < (yellowBucket nodes).length ↔ ∃ n ∈ nodes, n.GetHealth = Yellow := by
  rw [List.length_pos_iff_exists_mem]
  constructor
  · rintro ⟨n, hn⟩
    rcases mem_yellowBucket.mp hn with ⟨hmem, hy⟩
    exact ⟨n, hmem, hy⟩
  · rintro ⟨n, hmem, hy⟩
    exact ⟨n, mem_yellowBucket.mpr ⟨hmem, hy⟩⟩

/-- `getBest` unfolded through the buckets. -/
theorem getBest_def (intn : (k : Nat) → 0 < k → Fin k) (nodes : List Node) :
    getBest intn nodes =
      if hg : 0 < (greenBucket nodes).length then
        .ok ((greenBucket nodes).get (intn (greenBucket nodes).length hg))
      else if hy : 0 < (yellowBucket nodes).length then
        .ok ((yellowBucket nodes).get (intn (yellowBucket nodes).length hy))
      else
        .error "no healthy nodes available" := rfl

theorem getBest_green_of_green {intn : (k : Nat) → 0 < k → Fin k}
    {nodes : List Node} (hex : ∃ n ∈ nodes, n.GetHealth = Green) :
    ∃ n, getBest intn nodes = .ok n ∧ n ∈ nodes ∧ n.GetHealth = Green := by
  have hg : 0 < (greenBucket nodes).length := greenBucket_pos_iff.mpr hex
  refine ⟨(greenBucket nodes).get (intn _ hg), ?_, ?_⟩
  · rw [getBest_def, dif_pos hg]
  · exact mem_greenBucket.mp (List.get_mem _ _ (intn _ hg).isLt)

theorem getBest_yellow_of_no_green {intn : (k : Nat) → 0 < k → Fin k}
    {nodes : List Node} (hng : ∀ n ∈ nodes, n.GetHealth ≠ Green)
    (hey : ∃ n ∈ nodes, n.GetHealth = Yellow) :
    ∃ n, getBest intn nodes = .ok n ∧ n ∈ nodes ∧ n.GetHealth = Yellow := by
  have hg : ¬ 0 < (greenBucket nodes).length := by
    rw [greenBucket_pos_iff]
    rintro ⟨n, hmem, hgr⟩
    exact hng n hmem hgr
  have hy : 0 < (yellowBucket nodes).length := yellowBucket_pos_iff.mpr hey
  refine ⟨(yellowBucket nodes).get (intn _ hy), ?_, ?_⟩
  · rw [getBest_def, dif_neg hg, dif_pos hy]
  · exact mem_yellowBucket.mp (List.get_mem _ _ (intn _ hy).isLt)

theorem getBest_error_of_no_healthy {intn : (k : Nat) → 0 < k → Fin k}
    {nodes : List Node}
    (h : ∀ n ∈ nodes, n.GetHealth ≠ Green ∧ n.GetHealth ≠ Yellow) :
    getBest intn nodes = .error "no healthy nodes available" := by
  have hg : ¬ 0 < (greenBucket nodes).length := by
    rw [greenBucket_pos_iff]
    rintro ⟨n, hmem, hgr⟩
    exact (h n hmem).1 hgr
  have hy : ¬ 0 < (yellowBucket nodes).length := by
    rw [yellowBucket_pos_iff]
    rintro ⟨n, hmem, hye⟩
    exact (h n hmem).2 hye
  rw [getBest_def, dif_neg hg, dif_neg hy]

theorem getBest_ok_not_red {intn : (k : Nat) → 0 < k → Fin k}
    {nodes : List Node} {n : Node} (h : getBest intn nodes = .ok n) :
    n.GetHealth ≠ Red := by
  rw [getBest_def] at h
  by_cases hg : 0 < (greenBucket nodes).length
  · rw [dif_pos hg] at h
    have := mem_greenBucket.mp (List.get_mem (greenBucket nodes) _ (intn _ hg).isLt)
    cases h
    simp only [List.get_eq_getElem] at this
    simp [this.2]
  · rw [dif_neg hg] at h
    by_cases hy : 0 < (yellowBucket nodes).length
    · rw [dif_pos hy] at h
      have := mem_yellowBucket.mp (List.get_mem (yellowBucket nodes) _ (intn _ hy).isLt)
      cases h
      simp only [List.get_eq_getElem] at this
      simp [this.2]
    · rw [dif_neg hy] at h
      cases h

/-! ## The claims -/

/-- C1: for every node set, `getBest` returns a Green node whenever at
least one node is Green; returns a Yellow node whenever no node is Green
and at least one is Yellow; fails with the `"no healthy nodes available"`
error whenever no node is Green and none is Yellow (in particular on the
empty set); and a returned node is never Red. -/
theorem getBest_health_tiers (intn : (k : Nat) → 0 < k → Fin k)
    (nodes : List Node) :
    ((∃ n ∈ nodes, n.GetHealth = Green) →
      ∃ n, getBest intn nodes = .ok n ∧ n ∈ nodes ∧ n.GetHealth = Green)
  ∧ ((∀ n ∈ nodes, n.GetHealth ≠ Green) → (∃ n ∈ nodes, n.GetHealth = Yellow) →
      ∃ n, getBest intn nodes = .ok n ∧ n ∈ nodes ∧ n.GetHealth = Yellow)
  ∧ ((∀ n ∈ nodes, n.GetHealth ≠ Green ∧ n.GetHealth ≠ Yellow) →
      getBest intn nodes = .error "no healthy nodes available")
  ∧ (∀ n, getBest intn nodes = .ok n → n.GetHealth ≠ Red) :=
  ⟨fun hex => getBest_green_of_green hex,
   fun hng hey => getBest_yellow_of_no_green hng hey,
   fun h => getBest_error_of_no_healthy h,
   fun _ h => getBest_ok_not_red h⟩

/-- Witness for C1: on a concrete node set holding one Green, one Yellow
and one Red node, `getBest` returns the Green node. -/
theorem getBest_health_tiers_witness :
    ∃ n, getBest intnZero
        [Node.mk "http://es001:9200" Yellow 3,
         Node.mk "http://es002:9200" Green 3,
         Node.mk "http://es003:9200" Red 3] = .ok n ∧
      n ∈ [Node.mk "http://es001:9200" Yellow 3,
           Node.mk "http://es002:9200" Green 3,
           Node.mk "http://es003:9200" Red 3] ∧
      n.GetHealth = Green :=
  (getBest_health_tiers intnZero
    [Node.mk "http://es001:9200" Yellow 3,
     Node.mk "http://es002:9200" Green 3,
     Node.mk "http://es003:9200" Red 3]).1
    ⟨Node.mk "http://es002:9200" Green 3, by simp, rfl⟩

/-- C2: the health transition functions are pure and total over the three
health values (they are total Lean functions into `Health`, with no error
case), with exactly the table
`Improve(Red)=Yellow, Improve(Yellow)=Green, Improve(Green)=Green,
Degrade(Green)=Yellow, Degrade(Yellow)=Red, Degrade(Red)=Red`. -/
theorem health_transition_table :
    Health.Improve Red = Yellow ∧
    Health.Improve Yellow = Green ∧
    Health.Improve Green = Green ∧
    Health.Degrade Green = Yellow ∧
    Health.Degrade Yellow = Red ∧
    Health.Degrade Red = Red := by
  decide

/-- C3: `pingAndSet` sets the node's health to `Improve` of the old health
when the probe returned true and to `Degrade` of the old health when it
returned false, and it is the only node operation that changes the node's
health: every other operation of the package leaves the node unchanged.
The result type `Node` (no error component) reflects that a probe failure
is never surfaced, only folded into the degradation. -/
theorem pingAndSet_only_mutator (n : Node) (success : Bool) :
    (Node.step n (NodeOp.pingAndSet success)).health =
      (if success then n.health.Improve else n.health.Degrade)
  ∧ (Node.step n (NodeOp.pingAndSet true)).health = n.health.Improve
  ∧ (Node.step n (NodeOp.pingAndSet false)).health = n.health.Degrade
  ∧ Node.step n NodeOp.getHealth = n
  ∧ Node.step n NodeOp.ping = n
  ∧ Node.step n NodeOp.search = n
  ∧ Node.step n NodeOp.multiSearch = n := by
  cases success <;> simp [Node.step, Node.pingAndSet]

/-- C4: `Ping` returns true if and only if the status GET completes (no
URL-parse failure, no transport error or timeout, no body-read failure),
the body is valid JSON, and decoding it as `struct { OK bool }` succeeds
with the `"ok"` field true.  Every other outcome yields false. -/
theorem ping_true_iff (env : PingEnv) :
    Ping env = true ↔
      env.urlParseOK = true ∧
      ∃ j, env.outcome = GetOutcome.body (some j) ∧
        unmarshalStatusOK j = some true := by
  cases env with
  | mk urlOK outcome =>
    cases urlOK
    · simp [Ping]
    · cases outcome with
      | transportError => simp [Ping]
      | readError => simp [Ping]
      | body oj =>
        cases oj with
        | none => simp [Ping]
        | some j =>
          cases hok : unmarshalStatusOK j with
          | none => simp [Ping, hok]
          | some b =>
            cases b <;> simp [Ping, hok]

/-- C6: a worker writes exactly one value to exactly one of the bundle's
two channels: the error channel exactly when the node's execution
returned an error, the response channel otherwise; the write trace always
has length one (never both channels, never neither). -/
theorem sendBundle_exactly_one_write {ε ρ : Type} (e : ε) (r : ρ)
    (res : Except ε ρ) :
    sendSearchBundle (Except.error e : Except ε ρ) = [BundleWrite.err e]
  ∧ sendSearchBundle (Except.ok r : Except ε ρ) = [BundleWrite.response r]
  ∧ (sendSearchBundle res).length = 1
  ∧ sendMultiSearchBundle (Except.error e : Except ε ρ) = [BundleWrite.err e]
  ∧ sendMultiSearchBundle (Except.ok r : Except ε ρ) = [BundleWrite.response r]
  ∧ (sendMultiSearchBundle res).length = 1 := by
  cases res <;> simp [sendSearchBundle, sendMultiSearchBundle]

/-- C7: for every health value, two consecutive `Degrade` calls reach Red,
so `Improve` of that is Yellow (hence Yellow or Green); two consecutive
`Improve` calls from any starting health — in particular from Red — reach
Green. -/
theorem health_convergence :
    ∀ h : Health,
      (Health.Improve (Health.Degrade (Health.Degrade h)) = Yellow ∨
       Health.Improve (Health.Degrade (Health.Degrade h)) = Green)
    ∧ Health.Improve (Health.Improve Red) = Green
    ∧ Health.Improve (Health.Improve h) = Green
    ∧ Health.Degrade (Health.Degrade h) = Red := by
  intro h
  cases h <;> decide

/-- Lists that are equal give the same element under the same draw,
whatever the positivity proofs. -/
theorem get_intn_congr {l1 l2 : List Node} (h : l1 = l2)
    (intn : (k : Nat) → 0 < k → Fin k) (p1 : 0 < l1.length)
    (p2 : 0 < l2.length) :
    l1.get (intn l1.length p1) = l2.get (intn l2.length p2) := by
  subst h
  rfl

theorem winningBucket_of_green {nodes : List Node}
    (hg : 0 < (greenBucket nodes).length) :
    winningBucket nodes = greenBucket nodes := by
  simp [winningBucket, hg]

theorem winningBucket_of_no_green {nodes : List Node}
    (hg : ¬ 0 < (greenBucket nodes).length) :
    winningBucket nodes = yellowBucket nodes := by
  simp [winningBucket, hg]

/-- C8: within the selected tier, `getBest` is exactly `rand.Intn` over
the winning bucket (green if non-empty, else yellow): for every draw the
returned node is the bucket entry at the drawn index — so the choice
depends on nothing but the draw and the bucket, and under a uniform draw
over `[0, k)` each of the `k` bucket nodes is returned with probability
`1/k` — and for every index `i < k` the draw returning `i` makes `getBest`
return the `i`-th node of the bucket. -/
theorem getBest_uniform_within_tier (nodes : List Node)
    (hw : 0 < (winningBucket nodes).length) :
    (∀ intn : (k : Nat) → 0 < k → Fin k,
        getBest intn nodes =
          .ok ((winningBucket nodes).get
                (intn (winningBucket nodes).length hw)))
  ∧ ∀ (i : Nat) (hi : i < (winningBucket nodes).length),
      getBest (intnConst i) nodes =
        .ok ((winningBucket nodes).get ⟨i, hi⟩) := by
  have main : ∀ intn : (k : Nat) → 0 < k → Fin k,
      getBest intn nodes =
        .ok ((winningBucket nodes).get
              (intn (winningBucket nodes).length hw)) := by
    intro intn
    by_cases hg : 0 < (greenBucket nodes).length
    · rw [getBest_def, dif_pos hg]
      exact congrArg Except.ok
        (get_intn_congr (winningBucket_of_green hg).symm intn hg hw)
    · have hwb : winningBucket nodes = yellowBucket nodes :=
        winningBucket_of_no_green hg
      have hy : 0 < (yellowBucket nodes).length := hwb ▸ hw
      rw [getBest_def, dif_neg hg, dif_pos hy]
      exact congrArg Except.ok
        (get_intn_congr hwb.symm intn hy hw)
  refine ⟨main, ?_⟩
  intro i hi
  rw [main (intnConst i)]
  have hfin : intnConst i (winningBucket nodes).length hw =
      ⟨i, hi⟩ := by
    apply Fin.ext
    simpa [intnConst] using Nat.mod_eq_of_lt hi
  rw [hfin]

/-- Witness for C8: with a concrete set whose green bucket holds two
nodes, the draw returning index 1 makes `getBest` return the second green
node. -/
theorem getBest_uniform_within_tier_witness :
    getBest (intnConst 1)
      [Node.mk "http://es001:9200" Yellow 3,
       Node.mk "http://es002:9200" Green 3,
       Node.mk "http://es003:9200" Green 3] =
      .ok (Node.mk "http://es003:9200" Green 3) :=
  ((getBest_uniform_within_tier
      [Node.mk "http://es001:9200" Yellow 3,
       Node.mk "http://es002:9200" Green 3,
       Node.mk "http://es003:9200" Green 3] (by decide)).2 1
    (by decide)).trans rfl

/-- C9: a node built by `NewNode` starts with health Yellow, so directly
after `NewCluster` on a non-empty endpoint list — before any probe has
run — `getBest` succeeds and returns a Yellow node: a fresh cluster is
never in the no-healthy-node state. -/
theorem newCluster_yellow_start (endpoint : String) (pingTimeout : Nat)
    (endpoints : List String) (pingInterval pt : Nat)
    (intn : (k : Nat) → 0 < k → Fin k) (hne : endpoints ≠ []) :
    (NewNode endpoint pingTimeout).health = Yellow
  ∧ ∃ n, getBest intn (NewCluster endpoints pingInterval pt).nodes = .ok n
        ∧ n.GetHealth = Yellow := by
  refine ⟨rfl, ?_⟩
  have hng : ∀ n ∈ (NewCluster endpoints pingInterval pt).nodes,
      n.GetHealth ≠ Green := by
    intro n hn
    rcases List.mem_map.mp hn with ⟨e, _, rfl⟩
    simp [NewNode, Node.GetHealth]
  have hey : ∃ n ∈ (NewCluster endpoints pingInterval pt).nodes,
      n.GetHealth = Yellow := by
    rcases List.exists_mem_of_ne_nil endpoints hne with ⟨e, he⟩
    exact ⟨NewNode e pt, List.mem_map.mpr ⟨e, he, rfl⟩, rfl⟩
  rcases getBest_yellow_of_no_green hng hey with ⟨n, h1, _, h3⟩
  exact ⟨n, h1, h3⟩

/-- Witness for C9: a fresh two-endpoint cluster answers `getBest` with a
Yellow node. -/
theorem newCluster_yellow_start_witness :
    (NewNode "http://es001:9200" 3).health = Yellow
  ∧ ∃ n, getBest intnZero
        (NewCluster ["http://es001:9200", "http://es002:9200"] 30 3).nodes =
          .ok n
      ∧ n.GetHealth = Yellow :=
  newCluster_yellow_start "http://es001:9200" 3
    ["http://es001:9200", "http://es002:9200"] 30 3 intnZero
    (List.cons_ne_nil _ _)

/-- C5: once the control loop receives the shutdown event it acknowledges
it and exits, processing no later event: the effect trace of a run whose
events are `before ++ shutdown :: after` is the trace of `before`
followed by exactly the shutdown acknowledgement — no probe cycle and no
dispatch arises from `after`, and since `Shutdown()` returns only upon
that acknowledgement, nothing is processed after `Shutdown()` returns.
The acknowledgement is never produced by any earlier event, so `before`
may be empty: the loop need not wait for any tick to service shutdown. -/
theorem loop_shutdown_halts (intn : (k : Nat) → 0 < k → Fin k)
    (nodes : List Node) (before after : List LoopEvent)
    (hbefore : LoopEvent.shutdown ∉ before) :
    loop intn nodes (before ++ LoopEvent.shutdown :: after) =
      loop intn nodes before ++ [LoopEffect.ackShutdown]
  ∧ LoopEffect.ackShutdown ∉ loop intn nodes before := by
  revert hbefore
  induction before with
  | nil =>
    intro _
    exact ⟨by simp [loop], by simp [loop]⟩
  | cons e rest ih =>
    intro hbefore
    have hrest : LoopEvent.shutdown ∉ rest :=
      fun h => hbefore (List.mem_cons_of_mem e h)
    obtain ⟨ih1, ih2⟩ := ih hrest
    cases e with
    | tick =>
      refine ⟨?_, ?_⟩
      · simp [loop, loopStep, ih1]
      · simp [loop, loopStep, ih2]
    | searchBundle id =>
      cases hgb : getBest intn nodes with
      | error err =>
        refine ⟨?_, ?_⟩ <;> simp [loop, loopStep, hgb, ih1, ih2]
      | ok node =>
        refine ⟨?_, ?_⟩ <;> simp [loop, loopStep, hgb, ih1, ih2]
    | multiSearchBundle id =>
      cases hgb : getBest intn nodes with
      | error err =>
        refine ⟨?_, ?_⟩ <;> simp [loop, loopStep, hgb, ih1, ih2]
      | ok node =>
        refine ⟨?_, ?_⟩ <;> simp [loop, loopStep, hgb, ih1, ih2]
    | shutdown =>
      exact absurd (List.mem_cons_self _ _) hbefore

/-- Witness for C5: a concrete run — one tick, then shutdown, then two
more would-be events — produces the tick's probe launch, then the
acknowledgement, and nothing else. -/
theorem loop_shutdown_halts_witness :
    (loop intnZero []
        ([LoopEvent.tick] ++ LoopEvent.shutdown ::
          [LoopEvent.tick, LoopEvent.searchBundle 0]) =
      loop intnZero [] [LoopEvent.tick] ++ [LoopEffect.ackShutdown])
  ∧ LoopEffect.ackShutdown ∉ loop intnZero [] [LoopEvent.tick] :=
  loop_shutdown_halts intnZero [] [LoopEvent.tick]
    [LoopEvent.tick, LoopEvent.searchBundle 0] (by decide)

/-- Changing only the status code of the HTTP response leaves
`searchCommon` unchanged: the bytes it returns come from the body alone. -/
theorem searchCommon_withStatus {β : Type} (env : SearchEnv β)
    (code : Nat) :
    searchCommon (env.withStatus code) = searchCommon env := by
  cases env with
  | mk u rb nr doR ra =>
    cases doR <;> simp [searchCommon, SearchEnv.withStatus]

/-- C10: `Search` and `MultiSearch` never inspect the HTTP status code:
their result is invariant under changing the response's status code; when
every step succeeds and the body unmarshals, they return the decoded
response with no error whatever the status code (for example 500); and an
error result arises exactly when one of the fallible steps (URL parse,
request-body encode, request construction, transport, body read) fails or
the body fails to unmarshal. -/
theorem search_ignores_status {β ρ : Type} (unm : β → Option ρ)
    (env : SearchEnv β) (code code' : Nat) (resp : HttpResponseGo β)
    (r : ρ) :
    (NodeSearch unm (env.withStatus code) =
        NodeSearch unm (env.withStatus code')
      ∧ NodeMultiSearch unm (env.withStatus code) =
          NodeMultiSearch unm (env.withStatus code'))
  ∧ (env.urlParseOK = true → env.requestBodyOK = true →
      env.newRequestOK = true → env.doResult = some resp →
      env.readAllOK = true → unm resp.bodyBytes = some r →
      NodeSearch unm env = .ok r ∧ NodeMultiSearch unm env = .ok r)
  ∧ ((∃ er, NodeSearch unm env = .error er) ↔
      ¬ (env.urlParseOK = true ∧ env.requestBodyOK = true ∧
         env.newRequestOK = true ∧ env.readAllOK = true ∧
         ∃ rsp, env.doResult = some rsp ∧
           ∃ r2, unm rsp.bodyBytes = some r2)) := by
  refine ⟨⟨?_, ?_⟩, ?_, ?_⟩
  · simp [NodeSearch, searchCommon_withStatus]
  · simp [NodeMultiSearch, searchCommon_withStatus]
  · intro h1 h2 h3 h4 h5 h6
    constructor <;>
      simp [NodeSearch, NodeMultiSearch, searchCommon, h1, h2, h3, h4, h5, h6]
  · cases env with
    | mk u rb nr doR ra =>
      cases doR with
      | none =>
        cases u <;> cases rb <;> cases nr <;> cases ra <;>
          simp [NodeSearch, searchCommon]
      | some rsp =>
        cases hu : unm rsp.bodyBytes with
        | none =>
          cases u <;> cases rb <;> cases nr <;> cases ra <;>
            simp [NodeSearch, searchCommon, hu]
        | some rr =>
          cases u <;> cases rb <;> cases nr <;> cases ra <;>
            simp [NodeSearch, searchCommon, hu]

/-- Witness for C10: a response with status code 500 whose body
unmarshals is returned as a successful result by both `Search` and
`MultiSearch`. -/
theorem search_ignores_status_witness :
    NodeSearch (fun b : Nat => some b)
        (SearchEnv.mk true true true (some (HttpResponseGo.mk 500 42)) true) =
      .ok 42
  ∧ NodeMultiSearch (fun b : Nat => some b)
        (SearchEnv.mk true true true (some (HttpResponseGo.mk 500 42)) true) =
      .ok 42 :=
  (search_ignores_status (fun b : Nat => some b)
    (SearchEnv.mk true true true (some (HttpResponseGo.mk 500 42)) true)
    200 404 (HttpResponseGo.mk 500 42) 42).2.1 rfl rfl rfl rfl rfl rfl

end ES
